import Mathlib

/-!
Verification of the `configur` settings resolver (`src/configur/config.py`).

The development shallowly embeds the `Settings` class: its store, the per-key
resolution algorithm (`_set_value_from_config` and the helpers it dispatches
to), `load`, and the access surface (`__getitem__`, `__getattr__`).

Modelling conventions, fixed once here:

* Python's dynamically typed values are the inductive `Dyn`.  Leaves sourced
  from the structured-config reader (tomlkit) arrive as the wrapper items
  `items.String` / `items.Integer` / `items.Float` - these subclass
  `str` / `int` / `float` and are the keys of `TOML_TO_BUILTIN_MAP` - and are
  modelled as the `tomlStr` / `tomlInt` / `tomlFloat` constructors.  Boolean
  leaves are the exception: `bool` cannot be subclassed in Python, so
  tomlkit's container lookup unwraps `items.Bool` to a plain `bool` (and the
  source's `elif type(value) == bool` branch is what handles file-sourced
  booleans); boolean leaves are therefore modelled as plain `pybool` and no
  wrapper-bool constructor exists.  tomlkit tables and inline tables are
  `dict` instances (`tomlTable`); `pydict` is a plain `dict` or a `Box`.
  TOML arrays are not modelled (no claim concerns them).
* Python floats are modelled as exact rationals (`Rat`); IEEE rounding, and
  the `inf` / `nan` spellings accepted by `float(str)`, are abstracted away.
  No claim exercises float values.
* The store (`Box`) is an insertion-ordered association list `Entries` with
  Python dict update semantics: updating an existing key keeps its position,
  a new key is appended.
* `os.environ`, `os.path.exists` + tomlkit `parse`, boto3 availability and
  the SSM client are the ambient `World`.  Config files appear already
  parsed (`World.files`); parse errors of malformed files are out of scope.
* Raised exceptions are the explicit error type `PyError`; functions that can
  raise return `Except (PyError × σ) σ` so that the state at the moment an
  exception escapes (Python mutates `self` in place) is preserved.
* `pyUpper` / `pyLower` / string trimming model `str.upper()` /
  `str.lower()` / `str.strip`-style whitespace handling, written over the
  character list so they compute by structural recursion (exact on ASCII
  keys and values, which is all the claims use).
-/

/-- Equality of `Except` results is decidable componentwise. -/
instance {ε α : Type} [DecidableEq ε] [DecidableEq α] :
    DecidableEq (Except ε α)
  | .ok a, .ok b =>
    if h : a = b then .isTrue (by rw [h]) else .isFalse (by simp [h])
  | .error a, .error b =>
    if h : a = b then .isTrue (by rw [h]) else .isFalse (by simp [h])
  | .ok _, .error _ => .isFalse (by simp)
  | .error _, .ok _ => .isFalse (by simp)

namespace Configur

mutual

/-- Python runtime values flowing through the resolver (see the conventions
in the file header for which constructor models which Python type). -/
inductive Dyn where
  | pystr (s : String)
  | pybool (b : Bool)
  | pyint (n : Int)
  | pyfloat (q : Rat)
  | pynone
  | tomlStr (s : String)
  | tomlInt (n : Int)
  | tomlFloat (q : Rat)
  | tomlTable (entries : Entries)
  | pydict (entries : Entries)
  deriving DecidableEq

/-- Insertion-ordered string-keyed mapping: a Python `dict` / `Box` body,
and also the key-value list of a tomlkit table. -/
inductive Entries where
  | nil
  | cons (key : String) (value : Dyn) (rest : Entries)
  deriving DecidableEq

end

end Configur

namespace Configur

/-- Exceptions raised by the source code or the libraries it calls. -/
inductive PyError where
  | osError (msg : String)
  | exception (msg : String)
  | importError (msg : String)
  | keyError (msg : String)
  | boxKeyError (msg : String)
  | typeError (msg : String)
  | attributeError (msg : String)
  deriving DecidableEq, Repr

/-- Outcome of one `ssm.get_parameter(Name=..., WithDecryption=True)` call.
`success p` is a normal response whose `Parameter` → `Value` entry is `p`
(`none` when the response lacks a `Parameter` key); `clientError` is a
`botocore` `ClientError` (not found, access denied, throttled); any other
exception type would propagate uncaught and is not modelled. -/
inductive SsmResult where
  | success (param : Option String)
  | clientError (msg : String)
  deriving DecidableEq

/-- The ambient process state the resolver reads: environment variables,
whether boto3 imported, the SSM collaborator, and the parsed filesystem. -/
structure World where
  envVars : List (String × String)
  botoAvailable : Bool
  ssmFetch : String → SsmResult
  files : String → Option (List (String × Dyn))

/-- `NAME in os.environ` / `os.getenv(NAME)`. -/
def World.envLookup (w : World) (k : String) : Option String :=
  w.envVars.lookup k

/-- The fields `Settings.__init__` sets through the `INTERNAL_ATTRS`
bypass: the store, the environment tag and whether an SSM client handle is
held (`self._ssm` is `None` exactly when boto3 is unavailable). -/
structure SettingsState where
  _store : Entries
  env : String
  ssmPresent : Bool
  deriving DecidableEq

/-- `Settings.INTERNAL_ATTRS`. -/
def INTERNAL_ATTRS : List String := ["_store", "_ssm", "env"]

/-- Python truthiness of the `parent` argument (`None` and the empty string
are falsy; the source tests `not parent` / `if parent:`). -/
def truthy : Option String → Bool
  | none => false
  | some s => !(s == "")

/-- Dictionary lookup (`dict.__getitem__` hit / `dict.get`). -/
def Entries.lookup? : Entries → String → Option Dyn
  | .nil, _ => none
  | .cons k v rest, key => if k == key then some v else rest.lookup? key

/-- Dictionary membership (`key in d`). -/
def Entries.has (es : Entries) (key : String) : Bool :=
  (es.lookup? key).isSome

/-- Dictionary update `d[key] = v`: existing key keeps its position, a new
key is appended (Python dict insertion order). -/
def Entries.set : Entries → String → Dyn → Entries
  | .nil, key, v => .cons key v .nil
  | .cons k w rest, key, v =>
    if k == key then .cons k v rest else .cons k w (rest.set key v)

/-- List of keys in order. -/
def Entries.keys : Entries → List String
  | .nil => []
  | .cons k _ rest => k :: rest.keys

/-- Concatenation of entry lists (used only to state theorems about where a
key sits inside a section). -/
def Entries.append : Entries → Entries → Entries
  | .nil, l => l
  | .cons k v rest, l => .cons k v (rest.append l)

/-- Python `str.upper()` (ASCII; same as `String.toUpper`, written over the
character list). -/
def pyUpper (s : String) : String :=
  ⟨s.data.map Char.toUpper⟩

/-- Python `str.lower()` (ASCII; same as `String.toLower`, written over the
character list). -/
def pyLower (s : String) : String :=
  ⟨s.data.map Char.toLower⟩

/-- Whitespace stripping at both ends, as `int(str)` / `float(str)` allow
(same as `String.trim`, written over the character list). -/
def pyStripWS (l : List Char) : List Char :=
  ((l.dropWhile Char.isWhitespace).reverse.dropWhile Char.isWhitespace).reverse

/-- Python `str.startswith`, over the character list. -/
def pyStartsWith (s pre : String) : Bool :=
  pre.data.isPrefixOf s.data

/-- Python `str.endswith`, over the character list. -/
def pyEndsWith (s suf : String) : Bool :=
  suf.data.isSuffixOf s.data

/-- Digit run as accepted inside a Python `int(str)` / `float(str)` literal:
nonempty, and each underscore sits between two digits (PEP 515).  Returns
the value and the number of actual digits. -/
def pyDigits? (l : List Char) : Option (Nat × Nat) :=
  match l with
  | [] => none
  | c :: rest =>
    if c.isDigit then pyDigitsGo (c.toNat - 48) 1 rest else none
where
  pyDigitsGo (acc count : Nat) : List Char → Option (Nat × Nat)
    | [] => some (acc, count)
    | '_' :: c :: rest =>
      if c.isDigit then pyDigitsGo (acc * 10 + (c.toNat - 48)) (count + 1) rest
      else none
    | ['_'] => none
    | c :: rest =>
      if c.isDigit then pyDigitsGo (acc * 10 + (c.toNat - 48)) (count + 1) rest
      else none

/-- Python `int(str)`: surrounding whitespace, optional sign, digit run.
`none` models the `ValueError`.  (Python also accepts non-ASCII digits and
whitespace; the claims only use ASCII.) -/
def pyInt? (s : String) : Option Int :=
  match pyStripWS s.data with
  | '+' :: rest => (pyDigits? rest).map (fun p => (p.1 : Int))
  | '-' :: rest => (pyDigits? rest).map (fun p => -(p.1 : Int))
  | rest => (pyDigits? rest).map (fun p => (p.1 : Int))

/-- Mantissa of a float literal: `digits`, `digits.`, `digits.digits` or
`.digits`, returned as an exact rational. -/
def pyFloatMantissa? (l : List Char) : Option Rat :=
  match l.span (fun c => !(c == '.')) with
  | (intPart, []) => (pyDigits? intPart).map (fun p => (p.1 : Rat))
  | (intPart, _dot :: fracPart) =>
    match intPart, fracPart with
    | [], [] => none
    | [], f =>
      (pyDigits? f).map (fun p => (p.1 : Rat) / ((10 : Rat) ^ p.2))
    | i, [] => (pyDigits? i).map (fun p => (p.1 : Rat))
    | i, f =>
      match pyDigits? i, pyDigits? f with
      | some pi, some pf =>
        some ((pi.1 : Rat) + (pf.1 : Rat) / ((10 : Rat) ^ pf.2))
      | _, _ => none

/-- Unsigned part of Python `float(str)`: mantissa with optional exponent.
(`inf` / `nan` spellings are abstracted away, see the file header.) -/
def pyFloatUnsigned? (l : List Char) : Option Rat :=
  match l.span (fun c => !(c == 'e' || c == 'E')) with
  | (mant, []) => pyFloatMantissa? mant
  | (mant, _e :: expPart) =>
    match pyFloatMantissa? mant with
    | none => none
    | some q =>
      let applyExp (neg : Bool) (digits : List Char) : Option Rat :=
        (pyDigits? digits).map (fun p =>
          if neg then q / ((10 : Rat) ^ p.1) else q * ((10 : Rat) ^ p.1))
      match expPart with
      | '+' :: rest => applyExp false rest
      | '-' :: rest => applyExp true rest
      | rest => applyExp false rest

/-- Python `float(str)`: surrounding whitespace, optional sign, mantissa,
optional exponent.  `none` models the `ValueError`. -/
def pyFloat? (s : String) : Option Rat :=
  match pyStripWS s.data with
  | '+' :: rest => pyFloatUnsigned? rest
  | '-' :: rest => (pyFloatUnsigned? rest).map (fun q => -q)
  | rest => pyFloatUnsigned? rest

/-- The `TOML_TO_BUILTIN_MAP` normalization step at the top of `set_attr`:
`if type(value) in self.TOML_TO_BUILTIN_MAP: value = ...MAP[type(value)](value)`.
The wrapper items subclass their builtin, so applying the builtin to the
item itself just strips the wrapper.  (The map's `items.Bool` entry never
fires here: boolean leaves arrive as plain `bool`, see the file header.) -/
def normalizeToml : Dyn → Dyn
  | .tomlStr s => .pystr s
  | .tomlInt n => .pyint n
  | .tomlFloat q => .pyfloat q
  | v => v

mutual

/-- `if isinstance(value, dict): value = Box(value)` in `set_attr`: a dict
instance (tomlkit table or plain dict) becomes a `Box`; nested dicts are
converted too, scalar leaves are left untouched. -/
def boxify : Dyn → Dyn
  | .tomlTable es => .pydict (boxifyEntries es)
  | .pydict es => .pydict (boxifyEntries es)
  | v => v

/-- Entry-list part of `boxify`. -/
def boxifyEntries : Entries → Entries
  | .nil => .nil
  | .cons k v rest => .cons k (boxify v) (boxifyEntries rest)

end

/-- `Settings.set_attr(name, value, parent)`: normalize the wrapper scalar,
box dict values, then write either at the root or inside the (auto-created)
nested `Box` keyed by `parent`.  When `self._store[parent]` exists but is a
scalar or `None`, the item assignment on it raises `TypeError`; the error
value carries the store as it stands when the exception escapes (set_attr
itself has not mutated it at that point). -/
def set_attr (st : Entries) (name : String) (value : Dyn)
    (parent : Option String) : Except (PyError × Entries) Entries :=
  let v := boxify (normalizeToml value)
  if truthy parent then
    let p := parent.getD ""
    match st.lookup? p with
    | none => .ok (st.set p (.pydict (Entries.nil.set name v)))
    | some (.pydict m) => .ok (st.set p (.pydict (m.set name v)))
    | some (.tomlTable m) => .ok (st.set p (.tomlTable (m.set name v)))
    | some _ => .error (.typeError "object does not support item assignment", st)
  else .ok (st.set name v)

/-- The cast in `_set_from_parent_env_var`, dispatching on the raw value's
runtime type: wrapper items go through `TOML_TO_BUILTIN_MAP` (so the builtin
constructor is applied to the env-var string), a plain `bool` is compared
case-insensitively against "true", anything else goes through
`type(value)(attr)`.  A `ValueError` is swallowed by the caller (the uncast
string is kept); `dict(s)` raises `ValueError` for every nonempty string and
yields `{}` for the empty one; `NoneType(s)` and tomlkit's table
constructors raise `TypeError`, which the caller does not catch. -/
def castBack (value : Dyn) (attr : String) : Except PyError Dyn :=
  match value with
  | .tomlStr _ => .ok (.pystr attr)
  | .tomlInt _ =>
    match pyInt? attr with
    | some n => .ok (.pyint n)
    | none => .ok (.pystr attr)
  | .tomlFloat _ =>
    match pyFloat? attr with
    | some q => .ok (.pyfloat q)
    | none => .ok (.pystr attr)
  | .pybool _ => .ok (.pybool (pyLower attr == "true"))
  | .pystr _ => .ok (.pystr attr)
  | .pyint _ =>
    match pyInt? attr with
    | some n => .ok (.pyint n)
    | none => .ok (.pystr attr)
  | .pyfloat _ =>
    match pyFloat? attr with
    | some q => .ok (.pyfloat q)
    | none => .ok (.pystr attr)
  | .pynone => .error (.typeError "NoneType takes no arguments")
  | .tomlTable _ => .error (.typeError "table constructor arguments")
  | .pydict _ =>
    if attr == "" then .ok (.pydict .nil) else .ok (.pystr attr)

/-- `Settings._set_from_parent_env_var(name, value, parent)`.  The caller
guarantees `PARENT_NAME` is in `os.environ` and passes its value as `attr`
(the source re-reads `os.getenv` for the same variable). -/
def setFromParentEnvVar (st : Entries) (name : String) (value : Dyn)
    (p : String) (attr : String) : Except (PyError × Entries) Entries :=
  match castBack value attr with
  | .ok a => set_attr st name a (some p)
  | .error e => .error (e, st)

/-- The variable name the regex `\$\x7b(.*?)\x7d` captures on a value that
starts with the two characters dollar + open brace: everything after them up
to the first closing brace.  (On a value whose first closing brace is
preceded by a newline the regex would find no match and the `[0]` would
raise `IndexError`; no claim involves such values.) -/
def interpVarName (v : String) : String :=
  ⟨(v.data.drop 2).takeWhile (fun c => !(c == '}'))⟩

/-- `Settings._set_from_env_var_interpolation(name, value, parent)`: look up
the name between the braces in `os.environ`; store its value when present,
store `None` when absent. -/
def setFromEnvVarInterpolation (w : World) (st : Entries) (name : String)
    (value : String) (parent : Option String) :
    Except (PyError × Entries) Entries :=
  match w.envLookup (interpVarName value) with
  | some s => set_attr st name (.pystr s) parent
  | none => set_attr st name .pynone parent

/-- `Settings._set_from_ssm(name, value, parent)`: raise `ImportError` when
boto3 is unavailable; otherwise fetch `value.replace("ssm:", "")` with
decryption; on a normal response with a `Parameter` entry store its value;
on a missing `Parameter` entry store nothing; on `ClientError` log and store
nothing (best effort). -/
def setFromSsm (w : World) (st : Entries) (name : String) (value : String)
    (parent : Option String) : Except (PyError × Entries) Entries :=
  if !w.botoAvailable then
    .error (.importError "boto3 not available and is required to read from SSM.", st)
  else
    match w.ssmFetch (value.replace "ssm:" "") with
    | .success (some v) => set_attr st name (.pystr v) parent
    | .success none => .ok st
    | .clientError _ => .ok st

/-- The env-var key `f"{parent.upper()}_{name.upper()}"` of the nested
override branch (only evaluated under a truthy parent). -/
def parentEnvKey (parent : Option String) (name : String) : String :=
  pyUpper (parent.getD "") ++ "_" ++ pyUpper name

mutual

/-- `Settings._set_value_from_config(name, value, parent)`: the per-key
resolution chain, branches in source order — direct env override (root
only), nested env override, nested-table recursion, `${...}` interpolation,
`ssm:` reference, literal assignment. -/
def setValueFromConfig (w : World) (st : Entries) (name : String)
    (value : Dyn) (parent : Option String) : Except (PyError × Entries) Entries :=
  if (w.envLookup (pyUpper name)).isSome && !(truthy parent) then
    set_attr st name (.pystr ((w.envLookup (pyUpper name)).getD "")) parent
  else if truthy parent && (w.envLookup (parentEnvKey parent name)).isSome then
    setFromParentEnvVar st name value (parent.getD "")
      ((w.envLookup (parentEnvKey parent name)).getD "")
  else
    match value with
    | .tomlTable es => processEntries w st es (some name)
    | .pydict es => processEntries w st es (some name)
    | .tomlStr s =>
      if pyStartsWith s "$\x7b" && pyEndsWith s "\x7d" then
        setFromEnvVarInterpolation w st name s parent
      else if pyStartsWith s "ssm:" then
        setFromSsm w st name s parent
      else set_attr st name (.tomlStr s) parent
    | .pystr s =>
      if pyStartsWith s "$\x7b" && pyEndsWith s "\x7d" then
        setFromEnvVarInterpolation w st name s parent
      else if pyStartsWith s "ssm:" then
        setFromSsm w st name s parent
      else set_attr st name (.pystr s) parent
    | v => set_attr st name v parent

/-- `for k, v in value.items(): self._set_value_from_config(k, v, parent)` —
the iteration used both by the nested-table branch (with the current key as
the new parent) and by `load`'s section walk (with no parent). -/
def processEntries (w : World) (st : Entries) (es : Entries)
    (parent : Option String) : Except (PyError × Entries) Entries :=
  match es with
  | .nil => .ok st
  | .cons k v rest =>
    match setValueFromConfig w st k v parent with
    | .error e => .error e
    | .ok st2 => processEntries w st2 rest parent

end

/-- `"default" not in settings_data` test: membership among the parsed
document's top-level keys. -/
def hasSection (doc : List (String × Dyn)) (name : String) : Bool :=
  doc.any (fun e => e.1 == name)

/-- The section walk of `Settings.load`: every top-level entry whose name
starts with the environment tag or is exactly "default" is applied, in file
order, by running `_set_value_from_config` on each of its items.  A matched
top-level entry that is not a table has no `.items()` and would raise
`AttributeError`. -/
def loadSections (w : World) (envTag : String) :
    List (String × Dyn) → Entries → Except (PyError × Entries) Entries
  | [], st => .ok st
  | (table, value) :: rest, st =>
    if pyStartsWith table envTag || table == "default" then
      match value with
      | .tomlTable es =>
        match processEntries w st es none with
        | .error e => .error e
        | .ok st2 => loadSections w envTag rest st2
      | .pydict es =>
        match processEntries w st es none with
        | .error e => .error e
        | .ok st2 => loadSections w envTag rest st2
      | _ => .error (.attributeError "value has no attribute items", st)
    else loadSections w envTag rest st

/-- `Settings.clear()`: reset the store to an empty `Box`. -/
def Settings.clear (s : SettingsState) : SettingsState :=
  { s with _store := Entries.nil }

/-- `Settings.load(config_filepath)`: raise `OSError` when the path does not
exist (before anything else — the store is untouched at that point), then
clear the store, parse, raise when no "default" section exists (the store is
already cleared), then walk the sections.  Errors carry the `Settings` state
as it stands when the exception escapes. -/
def Settings.load (w : World) (s : SettingsState) (path : String) :
    Except (PyError × SettingsState) SettingsState :=
  match w.files path with
  | none =>
    .error (.osError "Could not load the default or provided settings file.", s)
  | some doc =>
    let s1 := Settings.clear s
    if hasSection doc "default" then
      match loadSections w s1.env doc Entries.nil with
      | .error (e, st) => .error (e, { s1 with _store := st })
      | .ok st => .ok { s1 with _store := st }
    else
      .error (.exception "Settings file missing required section default", s1)

/-- `Settings.__getitem__`: `value = self._store.get(item)`, then raise
`KeyError` when the looked-up value `is None` — which happens both when the
key is absent and when it is present with stored value `None`. -/
def Settings.getitem (s : SettingsState) (item : String) : Except PyError Dyn :=
  match s._store.lookup? item with
  | some .pynone => .error (.keyError (item ++ " does not exist"))
  | some v => .ok v
  | none => .error (.keyError (item ++ " does not exist"))

/-- Result of `Settings.__getattr__`: the three reserved internal fields
resolve directly; otherwise the name is looked up in the store via `Box`
attribute access, which raises `BoxKeyError` on a missing key (python-box's
`BoxKeyError` subclasses both `KeyError` and `AttributeError`, which is why
the repository's `hasattr` probes return `False` for missing keys). -/
inductive GetattrResult where
  | storeField
  | ssmField
  | envField
  | val (v : Dyn)
  | raised (e : PyError)
  deriving DecidableEq

/-- Names found on the `Settings` class or the `Box` class by normal Python
attribute lookup, hence never reaching the store through `__getattr__`
(methods such as `get`, `items`, `keys`, `values`, `load`, `clear`).
Theorems about attribute access assume the probed key is not one of these. -/
def classAttrNames : List String :=
  ["load", "clear", "set_attr", "items", "keys", "values", "get",
   "to_dict", "update", "pop", "popitem", "setdefault", "copy",
   "merge_update", "fromkeys"]

/-- `Settings.__getattr__(name)` (together with the preceding normal
attribute lookup for the internal fields; see `classAttrNames` for the
method names that are out of the model). -/
def Settings.getattr (s : SettingsState) (name : String) : GetattrResult :=
  if name == "_store" then .storeField
  else if name == "_ssm" then .ssmField
  else if name == "env" then .envField
  else
    match s._store.lookup? name with
    | some v => .val v
    | none => .raised (.boxKeyError name)

/-- Observer for stating theorems: the value reached by
`settings.parent.child` when the root slot holds a nested `Box`. -/
def nestedLookup (st : Entries) (p c : String) : Option Dyn :=
  match st.lookup? p with
  | some (.pydict m) => m.lookup? c
  | _ => none

/-- A raw leaf value that the resolution chain assigns literally: not a
table, and not a string claimed by the interpolation or `ssm:` branches. -/
def scalarLiteral : Dyn → Bool
  | .tomlTable _ => false
  | .pydict _ => false
  | .tomlStr s =>
    !(pyStartsWith s "$\x7b" && pyEndsWith s "\x7d") && !(pyStartsWith s "ssm:")
  | .pystr s =>
    !(pyStartsWith s "$\x7b" && pyEndsWith s "\x7d") && !(pyStartsWith s "ssm:")
  | _ => true

/-- Stored values that are not nested mappings (writing under them as a
parent raises `TypeError`). -/
def isScalarStored : Dyn → Bool
  | .pydict _ => false
  | .tomlTable _ => false
  | _ => true

/-- A root slot `set_attr` can write a child into without raising. -/
def parentWritable (st : Entries) (p : String) : Bool :=
  match st.lookup? p with
  | none => true
  | some (.pydict _) => true
  | _ => false

/-! ### Association-list lemmas -/

theorem Entries.lookup_set_self : ∀ (es : Entries) (k : String) (v : Dyn),
    (es.set k v).lookup? k = some v
  | .nil, k, v => by simp [Entries.set, Entries.lookup?]
  | .cons a b rest, k, v => by
    by_cases h : a = k
    · simp [Entries.set, Entries.lookup?, h]
    · simp only [Entries.set, Entries.lookup?, h, if_false,
        beq_eq_false_iff_ne.2 h, Bool.false_eq_true]
      exact Entries.lookup_set_self rest k v

theorem Entries.lookup_set_ne : ∀ (es : Entries) (k k' : String) (v : Dyn),
    k' ≠ k → (es.set k' v).lookup? k = es.lookup? k
  | .nil, k, k', v, h => by
    simp [Entries.set, Entries.lookup?, beq_eq_false_iff_ne.2 h]
  | .cons a b rest, k, k', v, h => by
    by_cases ha : a = k'
    · subst ha
      simp [Entries.set, Entries.lookup?, beq_eq_false_iff_ne.2 h]
    · simp only [Entries.set, Entries.lookup?, beq_eq_false_iff_ne.2 ha,
        if_false, Bool.false_eq_true]
      by_cases hk : a = k
      · simp [Entries.lookup?, hk]
      · simp only [Entries.lookup?, beq_eq_false_iff_ne.2 hk, if_false,
          Bool.false_eq_true]
        exact Entries.lookup_set_ne rest k k' v h

theorem Entries.set_set_same : ∀ (es : Entries) (k : String) (v w : Dyn),
    (es.set k v).set k w = es.set k w
  | .nil, k, v, w => by simp [Entries.set]
  | .cons a b rest, k, v, w => by
    by_cases ha : a = k
    · simp [Entries.set, ha]
    · simp only [Entries.set, beq_eq_false_iff_ne.2 ha, if_false,
        Bool.false_eq_true]
      rw [Entries.set_set_same rest k v w]

theorem Entries.set_eq_self_of_lookup : ∀ (es : Entries) (k : String) (v : Dyn),
    es.lookup? k = some v → es.set k v = es
  | .nil, k, v, h => by simp [Entries.lookup?] at h
  | .cons a b rest, k, v, h => by
    by_cases ha : a = k
    · subst ha
      simp only [Entries.lookup?, beq_self_eq_true, if_true] at h
      cases h
      simp [Entries.set]
    · simp only [Entries.lookup?, beq_eq_false_iff_ne.2 ha, if_false,
        Bool.false_eq_true] at h
      simp only [Entries.set, beq_eq_false_iff_ne.2 ha, if_false,
        Bool.false_eq_true]
      rw [Entries.set_eq_self_of_lookup rest k v h]

theorem Entries.set_fresh_append : ∀ (es : Entries) (k : String) (v : Dyn),
    es.lookup? k = none → es.set k v = es.append (.cons k v .nil)
  | .nil, k, v, h => by simp [Entries.set, Entries.append]
  | .cons a b rest, k, v, h => by
    by_cases ha : a = k
    · subst ha; simp [Entries.lookup?] at h
    · simp only [Entries.lookup?, beq_eq_false_iff_ne.2 ha, if_false,
        Bool.false_eq_true] at h
      simp only [Entries.set, Entries.append, beq_eq_false_iff_ne.2 ha,
        if_false, Bool.false_eq_true]
      rw [Entries.set_fresh_append rest k v h]

/-! ### Guard-evaluation lemmas -/

theorem pyStartsWith_append (a t : String) : pyStartsWith (a ++ t) a = true := by
  simp only [pyStartsWith, String.data_append]
  exact List.isPrefixOf_iff_prefix.2 (List.prefix_append a.data t.data)

theorem ssm_not_interp (rest : String) :
    pyStartsWith ("ssm:" ++ rest) "$\x7b" = false := by
  have hd : ("ssm:" ++ rest).data = 's' :: 's' :: 'm' :: ':' :: rest.data := by
    rw [String.data_append]
    rfl
  have hc : ('$' == 's') = false := by decide
  simp [pyStartsWith, hd, List.isPrefixOf, hc]

theorem interp_starts (FOO : String) :
    pyStartsWith ("$\x7b" ++ FOO ++ "\x7d") "$\x7b" = true := by
  have := pyStartsWith_append "$\x7b" (FOO ++ "\x7d")
  rwa [← String.append_assoc] at this

theorem interp_ends (FOO : String) :
    pyEndsWith ("$\x7b" ++ FOO ++ "\x7d") "\x7d" = true := by
  simp only [pyEndsWith, String.data_append]
  exact List.isSuffixOf_iff_suffix.2
    (List.suffix_append ("$\x7b".data ++ FOO.data) "\x7d".data)

theorem interp_not_ssm (FOO : String) :
    pyStartsWith ("$\x7b" ++ FOO ++ "\x7d") "ssm:" = false := by
  have hd : ("$\x7b" ++ FOO ++ "\x7d").data =
      '$' :: '{' :: (FOO.data ++ "\x7d".data) := by
    rw [String.data_append, String.data_append]
    rfl
  have hc : ('s' == '$') = false := by decide
  simp [pyStartsWith, hd, List.isPrefixOf, hc]


theorem takeWhile_append_of_all {p : Char → Bool} (l l' : List Char)
    (h : ∀ c ∈ l, p c = true) :
    (l ++ l').takeWhile p = l ++ l'.takeWhile p := by
  induction l with
  | nil => simp
  | cons c rest ih =>
    have hc : p c = true := h c (List.mem_cons_self c rest)
    simp only [List.cons_append, List.takeWhile_cons, hc, if_true]
    rw [ih (fun d hd => h d (List.mem_cons_of_mem c hd))]

theorem boxify_scalar (v : Dyn) (h : isScalarStored v = true) :
    boxify v = v := by
  cases v <;> simp_all [isScalarStored, boxify]

theorem normalize_scalar_stored (v : Dyn) (h : scalarLiteral v = true) :
    isScalarStored (normalizeToml v) = true := by
  cases v <;> simp_all [scalarLiteral, normalizeToml, isScalarStored]

/-- Root-level `set_attr` (falsy parent) always succeeds and writes the
normalized, boxed value at the root. -/
theorem set_attr_root (st : Entries) (name : String) (v : Dyn) :
    set_attr st name v none = .ok (st.set name (boxify (normalizeToml v))) := by
  simp [set_attr, truthy]

theorem interpVarName_eval (FOO : String) (h : '}' ∉ FOO.data) :
    interpVarName ("$\x7b" ++ FOO ++ "\x7d") = FOO := by
  have hd : ("$\x7b" ++ FOO ++ "\x7d").data =
      '$' :: '{' :: (FOO.data ++ "\x7d".data) := by
    rw [String.data_append, String.data_append]
    rfl
  have hall : ∀ c ∈ FOO.data, (!(c == '}')) = true := by
    intro c hc
    simp only [Bool.not_eq_eq_eq_not, Bool.not_true, beq_eq_false_iff_ne]
    intro he
    exact h (he ▸ hc)
  simp only [interpVarName, hd, List.drop_succ_cons, List.drop_zero]
  rw [takeWhile_append_of_all _ _ hall]
  have hb : ("\x7d".data).takeWhile (fun c => !(c == '}')) = [] := by decide
  rw [hb, List.append_nil]

theorem normalize_of_scalarLiteral (st : Entries) (name : String) (v : Dyn)
    (hv : scalarLiteral v = true) :
    set_attr st name v none = .ok (st.set name (normalizeToml v)) := by
  rw [set_attr_root]
  rw [boxify_scalar (normalizeToml v) (normalize_scalar_stored v hv)]

/-! ### Concrete fixtures used by witnesses and counterexamples -/

/-- A world with no environment variables, no boto3 and no files. -/
def bareWorld : World :=
  { envVars := [], botoAvailable := false,
    ssmFetch := fun _ => .clientError "stub", files := fun _ => none }

/-- A freshly constructed `Settings` (empty store, default tag, no client). -/
def emptySettings : SettingsState :=
  { _store := .nil, env := "local", ssmPresent := false }

end Configur

namespace Configur

/-! ### C2 -/

/-- C2: for every root-level key `K` (no parent) with any raw value `V`, if
a process environment variable named `UPPERCASE(K)` is set to string `S` at
resolution time, then the resolved value of `K` is exactly the string `S`,
with no type coercion, regardless of `V`'s original type or form (including
mapping, interpolation, or `ssm:`-prefixed values). -/
theorem C2_root_env_override (w : World) (st : Entries) (K S : String)
    (V : Dyn) (henv : w.envLookup (pyUpper K) = some S) :
    setValueFromConfig w st K V none = .ok (st.set K (.pystr S)) ∧
    (st.set K (.pystr S)).lookup? K = some (.pystr S) := by
  constructor
  · rw [setValueFromConfig.eq_def]
    simp [henv, truthy, set_attr, boxify, normalizeToml]
  · exact Entries.lookup_set_self st K (.pystr S)

/-- A world whose only environment variable is `DB_HOST=override-host`. -/
def dbHostWorld : World :=
  { envVars := [("DB_HOST", "override-host")], botoAvailable := false,
    ssmFetch := fun _ => .clientError "stub", files := fun _ => none }

/-- Witness for C2, at key `db_host` with a mapping-typed raw value. -/
theorem C2_witness :
    dbHostWorld.envLookup (pyUpper "db_host") = some "override-host" ∧
    (setValueFromConfig dbHostWorld .nil "db_host"
        (.tomlTable (.cons "nested" (.tomlInt 5) .nil)) none =
      .ok (Entries.nil.set "db_host" (.pystr "override-host")) ∧
     (Entries.nil.set "db_host" (.pystr "override-host")).lookup? "db_host" =
      some (.pystr "override-host")) :=
  ⟨by decide, C2_root_env_override dbHostWorld .nil "db_host" "override-host"
    (.tomlTable (.cons "nested" (.tomlInt 5) .nil)) (by decide)⟩

/-! ### C10 -/

/-- C10: for every key present at the root of the store whose stored value
is the null marker (for example one set from an unset interpolation
reference), mapping-style access raises the key-not-found error even though
the key exists: presence is judged by the looked-up value being non-null,
not by key membership. -/
theorem C10_null_value_key_raises (s : SettingsState) (k : String)
    (h : s._store.lookup? k = some .pynone) :
    Settings.getitem s k = .error (.keyError (k ++ " does not exist")) ∧
    s._store.has k = true := by
  constructor
  · simp [Settings.getitem, h]
  · simp [Entries.has, h]

/-- The store produced by resolving `unset_var = "${NOT_SET}"` in
`bareWorld` (the interpolation miss stores the null marker). -/
def nullMarkerSettings : SettingsState :=
  { _store := .cons "unset_var" .pynone .nil, env := "local",
    ssmPresent := false }

/-- Witness for C10: the null-marker store really does come out of the
interpolation branch, and mapping access on the present key raises. -/
theorem C10_witness :
    setValueFromConfig bareWorld .nil "unset_var"
        (.tomlStr "$\x7bNOT_SET\x7d") none = .ok nullMarkerSettings._store ∧
    nullMarkerSettings._store.lookup? "unset_var" = some .pynone ∧
    (Settings.getitem nullMarkerSettings "unset_var" =
        .error (.keyError ("unset_var" ++ " does not exist")) ∧
      nullMarkerSettings._store.has "unset_var" = true) :=
  ⟨by decide, by decide,
    C10_null_value_key_raises nullMarkerSettings "unset_var" (by decide)⟩

/-! ### C4 -/

/-- C4 as stated is false on the code: mapping access on a missing key does
raise, but attribute access on the same missing key raises as well (the
default `Box` raises `BoxKeyError`, which is also an `AttributeError` — the
repository's own `assert not hasattr(...)` tests rely on that raise); it
does not return null/empty. -/
theorem C4_counterexample :
    Settings.getitem emptySettings "missing_key" =
      .error (.keyError ("missing_key" ++ " does not exist")) ∧
    Settings.getattr emptySettings "missing_key" =
      .raised (.boxKeyError "missing_key") ∧
    Settings.getattr emptySettings "missing_key" ≠ .val .pynone := by
  exact ⟨by decide, by decide, by decide⟩

/-- C4 amended: for the same `Settings` instance and any top-level key
absent from the store (and not shadowed by a reserved internal field or a
class method name), mapping-style access fails with a key-not-found error
and attribute-style access raises a `BoxKeyError` (a key-not-found error
that is also an `AttributeError`) rather than returning null; both raising
behaviors coexist on the same instance. -/
theorem C4_missing_key_both_raise (s : SettingsState) (k : String)
    (hk1 : k ∉ INTERNAL_ATTRS) (_hk2 : k ∉ classAttrNames)
    (habs : s._store.lookup? k = none) :
    Settings.getitem s k = .error (.keyError (k ++ " does not exist")) ∧
    Settings.getattr s k = .raised (.boxKeyError k) := by
  simp only [INTERNAL_ATTRS, List.mem_cons, List.not_mem_nil, or_false,
    not_or] at hk1
  obtain ⟨h1, h2, h3⟩ := hk1
  constructor
  · simp [Settings.getitem, habs]
  · simp [Settings.getattr, habs, h1, h2, h3]

/-- Witness for the amended C4 at the concrete key `missing_key`. -/
theorem C4_witness :
    ("missing_key" ∉ INTERNAL_ATTRS) ∧ ("missing_key" ∉ classAttrNames) ∧
    emptySettings._store.lookup? "missing_key" = none ∧
    (Settings.getitem emptySettings "missing_key" =
        .error (.keyError ("missing_key" ++ " does not exist")) ∧
      Settings.getattr emptySettings "missing_key" =
        .raised (.boxKeyError "missing_key")) :=
  ⟨by decide, by decide, by decide,
    C4_missing_key_both_raise emptySettings "missing_key" (by decide)
      (by decide) (by decide)⟩

/-! ### C5 -/

/-- A stale store left over from a previous successful load. -/
def staleSettings : SettingsState :=
  { _store := .cons "project_name" (.pystr "configur") .nil, env := "local",
    ssmPresent := false }

/-- C5 as stated is false on the code for the not-found case: the `OSError`
is raised before `self.clear()` runs, so the prior store survives the
failed load and its keys remain readable. -/
theorem C5_counterexample :
    Settings.load bareWorld staleSettings "missing.toml" =
      .error (.osError "Could not load the default or provided settings file.",
        staleSettings) ∧
    Settings.getitem staleSettings "project_name" = .ok (.pystr "configur") := by
  exact ⟨by decide, by decide⟩

/-- C5 amended: `Load` fails with a not-found error when the path does not
exist, leaving the prior store intact (the existence check precedes the
reset); it fails with a missing-default-section error when the parsed file
has no `default` section, and in that case the store has already been
cleared, so no key from a previous load remains readable. -/
theorem C5_load_failure_states (w : World) (s : SettingsState) (path : String) :
    (w.files path = none →
      Settings.load w s path =
        .error (.osError "Could not load the default or provided settings file.",
          s)) ∧
    (∀ doc, w.files path = some doc → hasSection doc "default" = false →
      Settings.load w s path =
        .error (.exception "Settings file missing required section default",
          { s with _store := Entries.nil })) := by
  constructor
  · intro h
    simp [Settings.load, h]
  · intro doc h hd
    simp [Settings.load, h, hd, Settings.clear]

/-- A world holding one config file that lacks a `default` section. -/
def noDefaultWorld : World :=
  { envVars := [], botoAvailable := false,
    ssmFetch := fun _ => .clientError "stub",
    files := fun p =>
      if p == "nodefault.toml" then some [("dev", .tomlTable .nil)] else none }

/-- Witness for the amended C5: both failure modes at concrete inputs. -/
theorem C5_witness :
    (bareWorld.files "missing.toml" = none ∧
      Settings.load bareWorld staleSettings "missing.toml" =
        .error (.osError "Could not load the default or provided settings file.",
          staleSettings)) ∧
    (noDefaultWorld.files "nodefault.toml" = some [("dev", .tomlTable .nil)] ∧
      hasSection [("dev", .tomlTable .nil)] "default" = false ∧
      Settings.load noDefaultWorld staleSettings "nodefault.toml" =
        .error (.exception "Settings file missing required section default",
          { staleSettings with _store := Entries.nil })) :=
  ⟨⟨by decide,
    (C5_load_failure_states bareWorld staleSettings "missing.toml").1 (by decide)⟩,
   ⟨by decide, by decide,
    (C5_load_failure_states noDefaultWorld staleSettings "nodefault.toml").2
      [("dev", .tomlTable .nil)] (by decide) (by decide)⟩⟩

/-! ### C6 -/

/-- C6: for every key whose raw value is the string interpolation reference
between dollar-brace and brace around `FOO`, resolution stores the process
environment variable `FOO`'s value when `FOO` is set and stores the null
marker when `FOO` is unset; it never stores the raw reference literally and
never fails the load (stated at the root, with no direct env-var override
shadowing the key). -/
theorem C6_interpolation (w : World) (st : Entries) (name FOO : String)
    (value : Dyn)
    (hbrace : '}' ∉ FOO.data)
    (hval : value = .tomlStr ("$\x7b" ++ FOO ++ "\x7d") ∨
      value = .pystr ("$\x7b" ++ FOO ++ "\x7d"))
    (hover : w.envLookup (pyUpper name) = none) :
    (∀ S, w.envLookup FOO = some S →
      setValueFromConfig w st name value none = .ok (st.set name (.pystr S)) ∧
      (st.set name (.pystr S)).lookup? name = some (.pystr S)) ∧
    (w.envLookup FOO = none →
      setValueFromConfig w st name value none = .ok (st.set name .pynone) ∧
      (st.set name .pynone).lookup? name = some .pynone) := by
  have hbranch :
      setValueFromConfig w st name value none =
        setFromEnvVarInterpolation w st name ("$\x7b" ++ FOO ++ "\x7d") none := by
    rcases hval with h | h <;>
      (subst h
       rw [setValueFromConfig.eq_def]
       simp [hover, truthy, interp_starts, interp_ends])
  constructor
  · intro S hS
    refine ⟨?_, Entries.lookup_set_self st name (.pystr S)⟩
    rw [hbranch]
    simp [setFromEnvVarInterpolation, interpVarName_eval FOO hbrace, hS,
      set_attr, truthy, boxify, normalizeToml]
  · intro hS
    refine ⟨?_, Entries.lookup_set_self st name .pynone⟩
    rw [hbranch]
    simp [setFromEnvVarInterpolation, interpVarName_eval FOO hbrace, hS,
      set_attr, truthy, boxify, normalizeToml]

/-- A world where `MY_VAR` is set. -/
def interpWorld : World :=
  { envVars := [("MY_VAR", "resolved")], botoAvailable := false,
    ssmFetch := fun _ => .clientError "stub", files := fun _ => none }

/-- Witness for C6 in both directions at the variable `MY_VAR`. -/
theorem C6_witness :
    ('}' ∉ "MY_VAR".data) ∧
    interpWorld.envLookup "MY_VAR" = some "resolved" ∧
    bareWorld.envLookup "MY_VAR" = none ∧
    (setValueFromConfig interpWorld .nil "env_var"
        (.tomlStr ("$\x7b" ++ "MY_VAR" ++ "\x7d")) none =
        .ok (Entries.nil.set "env_var" (.pystr "resolved")) ∧
      (Entries.nil.set "env_var" (.pystr "resolved")).lookup? "env_var" =
        some (.pystr "resolved")) ∧
    (setValueFromConfig bareWorld .nil "env_var"
        (.tomlStr ("$\x7b" ++ "MY_VAR" ++ "\x7d")) none =
        .ok (Entries.nil.set "env_var" .pynone) ∧
      (Entries.nil.set "env_var" .pynone).lookup? "env_var" = some .pynone) :=
  ⟨by decide, by decide, by decide,
    (C6_interpolation interpWorld .nil "env_var" "MY_VAR" _ (by decide)
      (Or.inl rfl) (by decide)).1 "resolved" (by decide),
    (C6_interpolation bareWorld .nil "env_var" "MY_VAR" _ (by decide)
      (Or.inl rfl) (by decide)).2 (by decide)⟩

/-! ### C7 -/

/-- C7: for every key whose raw value is a string prefixed with "ssm:", if
the Secret Provider is unavailable (boto3 did not import) then resolution
raises the provider-unavailable `ImportError`, which propagates instead of
being logged and skipped (stated at the root, with no direct env-var
override shadowing the key; the state carried by the error is unchanged). -/
theorem C7_ssm_provider_unavailable (w : World) (st : Entries)
    (name rest : String) (value : Dyn)
    (hboto : w.botoAvailable = false)
    (hover : w.envLookup (pyUpper name) = none)
    (hval : value = .tomlStr ("ssm:" ++ rest) ∨
      value = .pystr ("ssm:" ++ rest)) :
    setValueFromConfig w st name value none =
      .error (.importError "boto3 not available and is required to read from SSM.",
        st) := by
  rcases hval with h | h <;>
    (subst h
     rw [setValueFromConfig.eq_def]
     simp [hover, truthy, ssm_not_interp, pyStartsWith_append, setFromSsm, hboto])

/-- Witness for C7 at the key `secret` and parameter path `/data/key`. -/
theorem C7_witness :
    bareWorld.botoAvailable = false ∧
    bareWorld.envLookup (pyUpper "secret") = none ∧
    setValueFromConfig bareWorld .nil "secret"
        (.tomlStr ("ssm:" ++ "/data/key")) none =
      .error (.importError "boto3 not available and is required to read from SSM.",
        .nil) :=
  ⟨by decide, by decide,
    C7_ssm_provider_unavailable bareWorld .nil "secret" "/data/key" _
      (by decide) (by decide) (Or.inl rfl)⟩

/-! ### C8 -/

/-- C8: for every key whose raw value is an "ssm:"-prefixed string, if the
Secret Provider is available but its fetch call fails with a `ClientError`,
the failure is only logged: the key is left unset in the store and the
resolution returns normally without raising (stated at the root, with no
direct env-var override shadowing the key). -/
theorem C8_ssm_client_error_soft (w : World) (st : Entries)
    (name rest msg : String) (value : Dyn)
    (hboto : w.botoAvailable = true)
    (hover : w.envLookup (pyUpper name) = none)
    (hval : value = .tomlStr ("ssm:" ++ rest) ∨
      value = .pystr ("ssm:" ++ rest))
    (hfetch : w.ssmFetch (("ssm:" ++ rest).replace "ssm:" "") =
      .clientError msg)
    (habsent : st.lookup? name = none) :
    setValueFromConfig w st name value none = .ok st ∧
    st.lookup? name = none := by
  refine ⟨?_, habsent⟩
  rcases hval with h | h <;>
    (subst h
     rw [setValueFromConfig.eq_def]
     simp [hover, truthy, ssm_not_interp, pyStartsWith_append, setFromSsm,
       hboto, hfetch])

/-- A world with boto3 present whose SSM collaborator denies every fetch. -/
def ssmDeniedWorld : World :=
  { envVars := [], botoAvailable := true,
    ssmFetch := fun _ => .clientError "AccessDenied", files := fun _ => none }

/-- Witness for C8 at the key `secret` and parameter path `/data/key`. -/
theorem C8_witness :
    ssmDeniedWorld.botoAvailable = true ∧
    ssmDeniedWorld.envLookup (pyUpper "secret") = none ∧
    ssmDeniedWorld.ssmFetch (("ssm:" ++ "/data/key").replace "ssm:" "") =
      .clientError "AccessDenied" ∧
    Entries.nil.lookup? "secret" = none ∧
    (setValueFromConfig ssmDeniedWorld .nil "secret"
        (.tomlStr ("ssm:" ++ "/data/key")) none = .ok .nil ∧
      Entries.nil.lookup? "secret" = none) :=
  ⟨by decide, by decide, rfl, by decide,
    C8_ssm_client_error_soft ssmDeniedWorld .nil "secret" "/data/key"
      "AccessDenied" _ (by decide) (by decide) (Or.inl rfl) rfl (by decide)⟩

/-! ### C3 -/

/-- Writing a child under a truthy parent whose root slot is free or already
a `Box` succeeds and lands the (normalized, boxed) value at
`settings.parent.child`. -/
theorem set_attr_parent_writable (st : Entries) (name : String) (v : Dyn)
    (p : String) (hp : p ≠ "") (hw : parentWritable st p = true) :
    ∃ st', set_attr st name v (some p) = .ok st' ∧
      nestedLookup st' p name = some (boxify (normalizeToml v)) := by
  have ht : truthy (some p) = true := by simp [truthy, hp]
  unfold parentWritable at hw
  rcases hlk : st.lookup? p with _ | val
  · refine ⟨st.set p (.pydict (Entries.nil.set name (boxify (normalizeToml v)))), ?_, ?_⟩
    · simp [set_attr, ht, hlk]
    · simp [nestedLookup, Entries.lookup_set_self, Entries.set,
        Entries.lookup?]
  · cases val <;> simp [hlk] at hw
    case pydict m =>
      refine ⟨st.set p (.pydict (m.set name (boxify (normalizeToml v)))), ?_, ?_⟩
      · simp [set_attr, ht, hlk]
      · simp [nestedLookup, Entries.lookup_set_self]

/-- C3: for every nested key `parent.child` resolved with a truthy parent
whose slot is writable and with env var `UPPERCASE(parent)_UPPERCASE(child)`
present: (1) if the raw value's type is boolean `true` and the variable is
"false", the resolved value is boolean `false` (parsed case-insensitively
against "true"); (2) if the raw value's type is integer and the variable is
a non-numeric string, the `ValueError` of the cast is swallowed and the
resolved value is the raw uncast string. -/
theorem C3_nested_cast_back :
    (∀ (w : World) (st : Entries) (p c : String),
      p ≠ "" →
      w.envLookup (pyUpper p ++ "_" ++ pyUpper c) = some "false" →
      parentWritable st p = true →
      ∃ st', setValueFromConfig w st c (.pybool true) (some p) = .ok st' ∧
        nestedLookup st' p c = some (.pybool false)) ∧
    (∀ (w : World) (st : Entries) (p c s : String) (v : Dyn) (n : Int),
      p ≠ "" →
      (v = .tomlInt n ∨ v = .pyint n) →
      w.envLookup (pyUpper p ++ "_" ++ pyUpper c) = some s →
      pyInt? s = none →
      parentWritable st p = true →
      ∃ st', setValueFromConfig w st c v (some p) = .ok st' ∧
        nestedLookup st' p c = some (.pystr s)) := by
  constructor
  · intro w st p c hp henv hw
    have ht : truthy (some p) = true := by simp [truthy, hp]
    have hkey : parentEnvKey (some p) c = pyUpper p ++ "_" ++ pyUpper c := by
      simp [parentEnvKey]
    have hcast : ("false" : String) = "false" := rfl
    have hlow : (pyLower "false" == "true") = false := by decide
    obtain ⟨st', hset, hnest⟩ :=
      set_attr_parent_writable st c (.pybool false) p hp hw
    refine ⟨st', ?_, ?_⟩
    · rw [setValueFromConfig.eq_def]
      simp only [ht, Bool.not_true, Bool.and_false, Bool.false_eq_true,
        if_false, hkey, henv, Option.isSome_some, Bool.and_true, if_true,
        Option.getD_some]
      simpa [setFromParentEnvVar, castBack, hlow] using hset
    · simpa [boxify, normalizeToml] using hnest
  · intro w st p c s v n hp hv henv hint hw
    have ht : truthy (some p) = true := by simp [truthy, hp]
    have hkey : parentEnvKey (some p) c = pyUpper p ++ "_" ++ pyUpper c := by
      simp [parentEnvKey]
    obtain ⟨st', hset, hnest⟩ :=
      set_attr_parent_writable st c (.pystr s) p hp hw
    refine ⟨st', ?_, ?_⟩
    · rw [setValueFromConfig.eq_def]
      simp only [ht, Bool.not_true, Bool.and_false, Bool.false_eq_true,
        if_false, hkey, henv, Option.isSome_some, Bool.and_true, if_true,
        Option.getD_some]
      rcases hv with h | h <;>
        (subst h
         simpa [setFromParentEnvVar, castBack, hint] using hset)
    · simpa [boxify, normalizeToml] using hnest

/-- A world where `PARENT_CHILD` is the string "false". -/
def boolOverrideWorld : World :=
  { envVars := [("PARENT_CHILD", "false")], botoAvailable := false,
    ssmFetch := fun _ => .clientError "stub", files := fun _ => none }

/-- A world where `PARENT_CHILD` is a non-numeric string. -/
def strOverrideWorld : World :=
  { envVars := [("PARENT_CHILD", "abc")], botoAvailable := false,
    ssmFetch := fun _ => .clientError "stub", files := fun _ => none }

/-- Witness for C3 at `parent.child`, in both cast directions. -/
theorem C3_witness :
    boolOverrideWorld.envLookup (pyUpper "parent" ++ "_" ++ pyUpper "child") =
      some "false" ∧
    (∃ st', setValueFromConfig boolOverrideWorld .nil "child" (.pybool true)
        (some "parent") = .ok st' ∧
      nestedLookup st' "parent" "child" = some (.pybool false)) ∧
    strOverrideWorld.envLookup (pyUpper "parent" ++ "_" ++ pyUpper "child") =
      some "abc" ∧
    pyInt? "abc" = none ∧
    (∃ st', setValueFromConfig strOverrideWorld .nil "child" (.tomlInt 123)
        (some "parent") = .ok st' ∧
      nestedLookup st' "parent" "child" = some (.pystr "abc")) :=
  ⟨by decide,
    C3_nested_cast_back.1 boolOverrideWorld .nil "parent" "child" (by decide)
      (by decide) (by decide),
    by decide, by decide,
    C3_nested_cast_back.2 strOverrideWorld .nil "parent" "child" "abc" _ 123
      (by decide) (Or.inl rfl) (by decide) (by decide) (by decide)⟩

/-! ### C9 -/

/-- A config file whose environment section nests a table two levels deep
(`[local.a.b]` with a leaf `x = 1`). -/
def deepDoc : List (String × Dyn) :=
  [("default", .tomlTable .nil),
   ("local", .tomlTable (.cons "a" (.tomlTable (.cons "b"
     (.tomlTable (.cons "x" (.tomlInt 1) .nil)) .nil)) .nil))]

/-- A world holding only `deepDoc`. -/
def deepWorld : World :=
  { envVars := [], botoAvailable := false,
    ssmFetch := fun _ => .clientError "stub",
    files := fun p => if p == "deep.toml" then some deepDoc else none }

/-- The store `deepDoc` loads into. -/
def deepStore : Entries :=
  .cons "b" (.pydict (.cons "x" (.pyint 1) .nil)) .nil

/-- C9 as stated is false at nesting depth two: the recursion passes only
the immediate key as the new parent, so the leaf `x` of `[local.a.b]` lands
at `store["b"]["x"]` — the ancestor chain `a.b` is not reflected (there is
no root key `a` at all). -/
theorem C9_counterexample :
    Settings.load deepWorld emptySettings "deep.toml" =
      .ok { _store := deepStore, env := "local", ssmPresent := false } ∧
    deepStore.lookup? "a" = none ∧
    nestedLookup deepStore "b" "x" = some (.pyint 1) := by
  exact ⟨by decide, by decide, by decide⟩

/-- The writes the nested-table branch performs for a list of leaves, in
order (each leaf value normalized and boxed by `set_attr`). -/
def setAll (m : Entries) : Entries → Entries
  | .nil => m
  | .cons c v rest => setAll (m.set c (boxify (normalizeToml v))) rest

/-- Per-leaf side conditions for the depth-one statement: every leaf of the
nested table is a plain scalar (no interpolation, no `ssm:`, no sub-table)
and no `PARENT_CHILD` env var overrides it. -/
def leafTableOk (w : World) (p : String) : Entries → Bool
  | .nil => true
  | .cons c v rest =>
    (scalarLiteral v && (w.envLookup (parentEnvKey (some p) c)).isNone) &&
      leafTableOk w p rest

theorem leafTableOk_lookup (w : World) (p : String) :
    ∀ (leaves : Entries) (c : String) (v : Dyn),
      leafTableOk w p leaves = true → leaves.lookup? c = some v →
      scalarLiteral v = true
  | .nil, c, v, _, hl => by simp [Entries.lookup?] at hl
  | .cons c0 v0 rest, c, v, hok, hl => by
    simp only [leafTableOk, Bool.and_eq_true] at hok
    by_cases hc : c0 = c
    · subst hc
      simp only [Entries.lookup?, beq_self_eq_true, if_true] at hl
      cases hl
      exact hok.1.1
    · simp only [Entries.lookup?, beq_eq_false_iff_ne.2 hc, if_false,
        Bool.false_eq_true] at hl
      exact leafTableOk_lookup w p rest c v hok.2 hl

theorem setAll_lookup_not_mem : ∀ (leaves m : Entries) (c : String),
    c ∉ leaves.keys → (setAll m leaves).lookup? c = m.lookup? c
  | .nil, m, c, _ => rfl
  | .cons c0 v0 rest, m, c, h => by
    simp only [Entries.keys, List.mem_cons, not_or] at h
    rw [setAll, setAll_lookup_not_mem rest _ c h.2,
      Entries.lookup_set_ne m c c0 _ (fun he => h.1 he.symm)]

theorem setAll_lookup_of_nodup : ∀ (leaves m : Entries) (c : String) (v : Dyn),
    leaves.keys.Nodup → leaves.lookup? c = some v →
    (setAll m leaves).lookup? c = some (boxify (normalizeToml v))
  | .nil, m, c, v, _, hl => by simp [Entries.lookup?] at hl
  | .cons c0 v0 rest, m, c, v, hnd, hl => by
    simp only [Entries.keys, List.nodup_cons] at hnd
    by_cases hc : c0 = c
    · subst hc
      simp only [Entries.lookup?, beq_self_eq_true, if_true] at hl
      cases hl
      rw [setAll, setAll_lookup_not_mem rest _ c0 hnd.1,
        Entries.lookup_set_self]
    · simp only [Entries.lookup?, beq_eq_false_iff_ne.2 hc, if_false,
        Bool.false_eq_true] at hl
      rw [setAll]
      exact setAll_lookup_of_nodup rest _ c v hnd.2 hl

/-- A scalar-literal leaf resolved under a truthy, non-overridden parent
goes straight to `set_attr`. -/
theorem svfc_scalar_literal (w : World) (st : Entries) (name : String)
    (v : Dyn) (parent : Option String)
    (hv : scalarLiteral v = true)
    (hguard1 : ((w.envLookup (pyUpper name)).isSome && !(truthy parent)) = false)
    (hguard2 : (truthy parent &&
      (w.envLookup (parentEnvKey parent name)).isSome) = false) :
    setValueFromConfig w st name v parent = set_attr st name v parent := by
  rw [setValueFromConfig.eq_def]
  simp only [hguard1, hguard2, Bool.false_eq_true, if_false]
  cases v with
  | tomlStr s =>
    simp only [scalarLiteral, Bool.and_eq_true, Bool.not_eq_true'] at hv
    simp only [hv.1, hv.2, Bool.false_eq_true, if_false]
  | pystr s =>
    simp only [scalarLiteral, Bool.and_eq_true, Bool.not_eq_true'] at hv
    simp only [hv.1, hv.2, Bool.false_eq_true, if_false]
  | tomlTable entries => simp [scalarLiteral] at hv
  | pydict entries => simp [scalarLiteral] at hv
  | pybool b => rfl
  | pyint n => rfl
  | pyfloat q => rfl
  | pynone => rfl
  | tomlInt n => rfl
  | tomlFloat q => rfl

theorem processEntries_leaf_box (w : World) (p : String) (hp : p ≠ "") :
    ∀ (leaves st m : Entries),
      st.lookup? p = some (.pydict m) →
      leafTableOk w p leaves = true →
      processEntries w st leaves (some p) =
        .ok (st.set p (.pydict (setAll m leaves)))
  | .nil, st, m, hlk, _ => by
    rw [processEntries, setAll, Entries.set_eq_self_of_lookup st p _ hlk]
  | .cons c v rest, st, m, hlk, hok => by
    simp only [leafTableOk, Bool.and_eq_true] at hok
    have ht : truthy (some p) = true := by simp [truthy, hp]
    have hg1 : ((w.envLookup (pyUpper c)).isSome && !(truthy (some p))) = false := by
      simp [ht]
    have hg2 : (truthy (some p) &&
        (w.envLookup (parentEnvKey (some p) c)).isSome) = false := by
      simp [Option.isNone_iff_eq_none.1 hok.1.2]
    rw [processEntries,
      svfc_scalar_literal w st c v (some p) hok.1.1 hg1 hg2]
    have hset : set_attr st c v (some p) =
        .ok (st.set p (.pydict (m.set c (boxify (normalizeToml v))))) := by
      simp [set_attr, ht, hlk]
    rw [hset]
    have hlk2 : (st.set p (.pydict (m.set c (boxify (normalizeToml v))))).lookup? p =
        some (.pydict (m.set c (boxify (normalizeToml v)))) :=
      Entries.lookup_set_self st p _
    have hrec := processEntries_leaf_box w p hp rest _ _ hlk2 hok.2
    rw [Entries.set_set_same] at hrec
    exact hrec

/-- C9 amended: a table nested one level below an environment section is
reflected in the store under its immediate parent key — every leaf `c = v`
of the nested table `p` is reachable as `settings.p.c` with the normalized
value.  At depth two or more only the innermost parent is kept (the
ancestor chain above it is dropped), as the counterexample shows. -/
theorem C9_depth_one_nesting (w : World) (st : Entries) (p : String)
    (leaves : Entries)
    (hp : p ≠ "")
    (hover : w.envLookup (pyUpper p) = none)
    (hfresh : st.lookup? p = none)
    (hne : leaves ≠ .nil)
    (hnodup : leaves.keys.Nodup)
    (hok : leafTableOk w p leaves = true) :
    setValueFromConfig w st p (.tomlTable leaves) none =
      .ok (st.set p (.pydict (setAll .nil leaves))) ∧
    ∀ c v, leaves.lookup? c = some v →
      nestedLookup (st.set p (.pydict (setAll .nil leaves))) p c =
        some (normalizeToml v) := by
  constructor
  · rw [setValueFromConfig.eq_def]
    simp only [hover, Option.isSome_none, Bool.false_and, Bool.false_eq_true,
      if_false, truthy, Bool.false_and]
    cases leaves with
    | nil => exact absurd rfl hne
    | cons c0 v0 rest =>
      simp only [leafTableOk, Bool.and_eq_true] at hok
      have ht : truthy (some p) = true := by simp [truthy, hp]
      have hg1 : ((w.envLookup (pyUpper c0)).isSome && !(truthy (some p))) = false := by
        simp [ht]
      have hg2 : (truthy (some p) &&
          (w.envLookup (parentEnvKey (some p) c0)).isSome) = false := by
        simp [Option.isNone_iff_eq_none.1 hok.1.2]
      rw [processEntries,
        svfc_scalar_literal w st c0 v0 (some p) hok.1.1 hg1 hg2]
      have hset : set_attr st c0 v0 (some p) =
          .ok (st.set p (.pydict (Entries.nil.set c0 (boxify (normalizeToml v0))))) := by
        simp [set_attr, ht, hfresh]
      rw [hset]
      have hlk2 : (st.set p (.pydict (Entries.nil.set c0
          (boxify (normalizeToml v0))))).lookup? p =
          some (.pydict (Entries.nil.set c0 (boxify (normalizeToml v0)))) :=
        Entries.lookup_set_self st p _
      have hrec := processEntries_leaf_box w p hp rest _ _ hlk2 hok.2
      rw [Entries.set_set_same] at hrec
      exact hrec
  · intro c v hl
    have hs : scalarLiteral v = true := leafTableOk_lookup w p leaves c v hok hl
    have := setAll_lookup_of_nodup leaves .nil c v hnodup hl
    rw [boxify_scalar _ (normalize_scalar_stored v hs)] at this
    simp [nestedLookup, Entries.lookup_set_self, this]

/-- The one-level nested table of the witness (`[local.snowflake]`). -/
def snowflakeLeaves : Entries :=
  .cons "account" (.tomlStr "acct") (.cons "warehouse" (.tomlInt 7) .nil)

/-- Witness for the amended C9 at a one-level nested `snowflake` table. -/
theorem C9_witness :
    bareWorld.envLookup (pyUpper "snowflake") = none ∧
    snowflakeLeaves.keys.Nodup ∧
    leafTableOk bareWorld "snowflake" snowflakeLeaves = true ∧
    (setValueFromConfig bareWorld .nil "snowflake" (.tomlTable snowflakeLeaves)
        none =
      .ok (Entries.nil.set "snowflake" (.pydict (setAll .nil snowflakeLeaves)))) ∧
    nestedLookup (Entries.nil.set "snowflake" (.pydict (setAll .nil snowflakeLeaves)))
        "snowflake" "account" = some (normalizeToml (.tomlStr "acct")) :=
  ⟨by decide, by decide, by decide,
    (C9_depth_one_nesting bareWorld .nil "snowflake" snowflakeLeaves
      (by decide) (by decide) (by decide) (by decide) (by decide) (by decide)).1,
    (C9_depth_one_nesting bareWorld .nil "snowflake" snowflakeLeaves
      (by decide) (by decide) (by decide) (by decide) (by decide) (by decide)).2
      "account" (.tomlStr "acct") (by decide)⟩

/-! ### C1 -/

/-- A config file in which the `[dev]` section precedes `[default]`. -/
def devFirstDoc : List (String × Dyn) :=
  [("dev", .tomlTable (.cons "k" (.tomlStr "a") .nil)),
   ("default", .tomlTable (.cons "k" (.tomlStr "b") .nil))]

/-- A world holding only `devFirstDoc`. -/
def devFirstWorld : World :=
  { envVars := [], botoAvailable := false,
    ssmFetch := fun _ => .clientError "stub",
    files := fun p => if p == "app.toml" then some devFirstDoc else none }

/-- A fresh `Settings` with environment tag `dev`. -/
def devSettings : SettingsState :=
  { _store := .nil, env := "dev", ssmPresent := false }

/-- C1 as stated is false on the code: `load` applies matching sections in
file order in a single pass, it does not apply `default` first.  With the
`[dev]` section before `[default]` and tag `dev`, the shared key resolves
to the default section's value, not the environment section's. -/
theorem C1_counterexample :
    Settings.load devFirstWorld devSettings "app.toml" =
      .ok { _store := .cons "k" (.pystr "b") .nil, env := "dev",
            ssmPresent := false } ∧
    (Entries.cons "k" (.pystr "b") .nil).lookup? "k" = some (.pystr "b") ∧
    Dyn.pystr "b" ≠ Dyn.pystr "a" := by
  exact ⟨by decide, by decide, by decide⟩

mutual

/-- Processing value `v` under key `name` can never overwrite the root slot
`k`, given the truthiness `tr` of the ambient parent: an untruthy parent
forces `name ≠ k`, and every nested table is checked recursively with the
truthiness its children will see. -/
def valueSafe (k name : String) : Dyn → Bool
  | .tomlTable es => entriesSafe k (!(name == "")) es
  | .pydict es => entriesSafe k (!(name == "")) es
  | _ => true

/-- `valueSafe` over a list of entries processed with parent-truthiness
`tr`. -/
def entriesSafe (k : String) (tr : Bool) : Entries → Bool
  | .nil => true
  | .cons c v rest =>
    ((tr || !(c == k)) && valueSafe k c v) && entriesSafe k tr rest

end

/-- A successful `set_attr` leaves a scalar-valued root slot `k` unchanged,
provided an untruthy parent implies the written name is not `k` (a truthy
parent either writes elsewhere or raises on the scalar slot). -/
theorem set_attr_preserves (st : Entries) (name : String) (v : Dyn)
    (parent : Option String) (st' : Entries) (k : String) (vk : Dyn)
    (h : set_attr st name v parent = .ok st')
    (hk : st.lookup? k = some vk) (hs : isScalarStored vk = true)
    (hsafe : (truthy parent || !(name == k)) = true) :
    st'.lookup? k = some vk := by
  by_cases ht : truthy parent = true
  · simp only [set_attr, ht, if_true] at h
    split at h
    · rename_i hlk
      cases h
      have hne : parent.getD "" ≠ k := by
        intro he
        rw [he, hk] at hlk
        cases hlk
      rw [Entries.lookup_set_ne st k _ _ hne]
      exact hk
    · rename_i m hlk
      cases h
      have hne : parent.getD "" ≠ k := by
        intro he
        rw [he, hk] at hlk
        cases hlk
        simp [isScalarStored] at hs
      rw [Entries.lookup_set_ne st k _ _ hne]
      exact hk
    · rename_i m hlk
      cases h
      have hne : parent.getD "" ≠ k := by
        intro he
        rw [he, hk] at hlk
        cases hlk
        simp [isScalarStored] at hs
      rw [Entries.lookup_set_ne st k _ _ hne]
      exact hk
    · exact Except.noConfusion h
  · have hf : truthy parent = false := Bool.eq_false_iff.2 ht
    have hname : name ≠ k := by
      rw [hf, Bool.false_or, Bool.not_eq_eq_eq_not, Bool.not_true,
        beq_eq_false_iff_ne] at hsafe
      exact hsafe
    simp only [set_attr, hf, Bool.false_eq_true, if_false] at h
    cases h
    rw [Entries.lookup_set_ne st k _ _ hname]
    exact hk

/-- Joint preservation statement for the mutual resolution functions, by
strong induction on the size of the value / entry list: once the root slot
`k` holds a scalar, no later successful resolution step that is safe for
`k` (see `valueSafe` / `entriesSafe`) changes it — later writes either land
elsewhere, or would have to go under parent `k` and then the run would have
raised `TypeError` on the scalar slot instead of succeeding. -/
theorem preserve_aux (k : String) : ∀ n : Nat,
    (∀ (w : World) (st : Entries) (name : String) (value : Dyn)
      (parent : Option String) (st' : Entries) (vk : Dyn),
      sizeOf value ≤ n →
      setValueFromConfig w st name value parent = .ok st' →
      st.lookup? k = some vk → isScalarStored vk = true →
      ((truthy parent || !(name == k)) && valueSafe k name value) = true →
      st'.lookup? k = some vk) ∧
    (∀ (w : World) (st es : Entries) (parent : Option String)
      (st' : Entries) (vk : Dyn),
      sizeOf es ≤ n →
      processEntries w st es parent = .ok st' →
      st.lookup? k = some vk → isScalarStored vk = true →
      entriesSafe k (truthy parent) es = true →
      st'.lookup? k = some vk) := by
  intro n
  induction n using Nat.strongRecOn with
  | ind n ih =>
  constructor
  · intro w st name value parent st' vk hsize hrun hk hs hsafe
    rw [Bool.and_eq_true] at hsafe
    rw [setValueFromConfig.eq_def] at hrun
    split at hrun
    · exact set_attr_preserves _ _ _ _ _ _ _ hrun hk hs hsafe.1
    · split at hrun
      · rename_i hg1 hg2
        rw [Bool.and_eq_true] at hg2
        unfold setFromParentEnvVar at hrun
        split at hrun
        · rename_i a hcb
          apply set_attr_preserves _ _ _ _ _ _ _ hrun hk hs
          cases parent with
          | none => simp [truthy] at hg2
          | some q =>
            have hq : truthy (some q) = true := hg2.1
            simp [Option.getD_some, hq]
        · exact Except.noConfusion hrun
      · split at hrun
        · -- nested tomlkit table: recurse
          rename_i es
          have hlt : sizeOf es < n := by
            have hspec := Dyn.tomlTable.sizeOf_spec es
            omega
          have hsafe2 : entriesSafe k (truthy (some name)) es = true := by
            have hv := hsafe.2
            simp only [valueSafe] at hv
            simpa [truthy] using hv
          exact (ih (sizeOf es) hlt).2 w st es (some name) st' vk (le_refl _)
            hrun hk hs hsafe2
        · -- nested Box/dict: recurse
          rename_i es
          have hlt : sizeOf es < n := by
            have hspec := Dyn.pydict.sizeOf_spec es
            omega
          have hsafe2 : entriesSafe k (truthy (some name)) es = true := by
            have hv := hsafe.2
            simp only [valueSafe] at hv
            simpa [truthy] using hv
          exact (ih (sizeOf es) hlt).2 w st es (some name) st' vk (le_refl _)
            hrun hk hs hsafe2
        · -- tomlkit string value
          split at hrun
          · unfold setFromEnvVarInterpolation at hrun
            split at hrun <;>
              exact set_attr_preserves _ _ _ _ _ _ _ hrun hk hs hsafe.1
          · split at hrun
            · unfold setFromSsm at hrun
              split at hrun
              · exact Except.noConfusion hrun
              · split at hrun
                · exact set_attr_preserves _ _ _ _ _ _ _ hrun hk hs hsafe.1
                · cases hrun
                  exact hk
                · cases hrun
                  exact hk
            · exact set_attr_preserves _ _ _ _ _ _ _ hrun hk hs hsafe.1
        · -- plain string value
          split at hrun
          · unfold setFromEnvVarInterpolation at hrun
            split at hrun <;>
              exact set_attr_preserves _ _ _ _ _ _ _ hrun hk hs hsafe.1
          · split at hrun
            · unfold setFromSsm at hrun
              split at hrun
              · exact Except.noConfusion hrun
              · split at hrun
                · exact set_attr_preserves _ _ _ _ _ _ _ hrun hk hs hsafe.1
                · cases hrun
                  exact hk
                · cases hrun
                  exact hk
            · exact set_attr_preserves _ _ _ _ _ _ _ hrun hk hs hsafe.1
        · -- remaining scalar constructors: direct literal assignment
          exact set_attr_preserves _ _ _ _ _ _ _ hrun hk hs hsafe.1
  · intro w st es parent st' vk hsize hrun hk hs hsafe
    cases es with
    | nil =>
      rw [processEntries] at hrun
      cases hrun
      exact hk
    | cons c v rest =>
      simp only [entriesSafe, Bool.and_eq_true] at hsafe
      rw [processEntries] at hrun
      split at hrun
      · exact Except.noConfusion hrun
      · rename_i st2 hsv
        have hltv : sizeOf v < n := by
          have hspec := Entries.cons.sizeOf_spec c v rest
          omega
        have hltr : sizeOf rest < n := by
          have hspec := Entries.cons.sizeOf_spec c v rest
          omega
        have h2 : st2.lookup? k = some vk := by
          apply (ih (sizeOf v) hltv).1 w st c v parent st2 vk (le_refl _)
            hsv hk hs
          rw [Bool.and_eq_true]
          exact hsafe.1
        exact (ih (sizeOf rest) hltr).2 w st2 rest parent st' vk (le_refl _)
          hrun h2 hs hsafe.2

/-- The section walk over a concatenation runs the first part, then the
second from the intermediate store. -/
theorem processEntries_append (w : World) (parent : Option String) :
    ∀ (l1 l2 st : Entries),
      processEntries w st (l1.append l2) parent =
        (match processEntries w st l1 parent with
          | .error e => .error e
          | .ok stm => processEntries w stm l2 parent)
  | .nil, l2, st => by rw [Entries.append, processEntries]
  | .cons c v rest, l2, st => by
    rw [Entries.append]
    cases hsv : setValueFromConfig w st c v parent with
    | error e => simp [processEntries, hsv]
    | ok st2 =>
      simp only [processEntries, hsv]
      exact processEntries_append w parent rest l2 st2

/-- C1 amended: for a config file in which the `default` section appears
before the active environment section (the conventional layout), and for a
key `k` present in both, a successful `Load` resolves `k` to the
environment section's value — provided `k` has no direct env-var override,
its value in the environment section is a plain scalar, and no later entry
of that section writes the root key `k` again (`entriesSafe`).  In general
sections are applied in file order and the last applied write wins, as the
counterexample with the environment section first shows. -/
theorem C1_env_section_wins_default_first
    (w : World) (s : SettingsState) (path sec k : String) (v : Dyn)
    (dflt es1 es2 : Entries) (s' : SettingsState)
    (hfile : w.files path = some
      [("default", .tomlTable dflt),
       (sec, .tomlTable (es1.append (.cons k v es2)))])
    (hsec : pyStartsWith sec s.env = true)
    (hover : w.envLookup (pyUpper k) = none)
    (hv : scalarLiteral v = true)
    (hsafe : entriesSafe k false es2 = true)
    (hload : Settings.load w s path = .ok s') :
    s'._store.lookup? k = some (normalizeToml v) := by
  have hdef : hasSection
      [("default", .tomlTable dflt),
       (sec, .tomlTable (es1.append (.cons k v es2)))] "default" = true := by
    simp [hasSection]
  simp only [Settings.load, hfile, hdef, if_true, Settings.clear] at hload
  split at hload
  · exact Except.noConfusion hload
  · rename_i st hls
    cases hload
    simp only [loadSections, hsec, beq_self_eq_true, Bool.or_true,
      Bool.true_or, if_true] at hls
    split at hls
    · exact Except.noConfusion hls
    · rename_i st2 hdflt
      rw [processEntries_append w none es1 (.cons k v es2) st2] at hls
      split at hls
      · exact Except.noConfusion hls
      · rename_i stm h1
        cases hls
        split at h1
        · exact Except.noConfusion h1
        · rename_i stmm h2
          have hg1 : ((w.envLookup (pyUpper k)).isSome && !(truthy none)) = false := by
            simp [hover]
          have hg2 : (truthy none &&
              (w.envLookup (parentEnvKey none k)).isSome) = false := by
            simp [truthy]
          simp only [processEntries] at h1
          split at h1
          · rename_i e hsv
            rw [svfc_scalar_literal w stmm k v none hv hg1 hg2,
              normalize_of_scalarLiteral stmm k v hv] at hsv
            exact Except.noConfusion hsv
          · rename_i st4 hsv
            rw [svfc_scalar_literal w stmm k v none hv hg1 hg2,
              normalize_of_scalarLiteral stmm k v hv] at hsv
            cases hsv
            exact (preserve_aux k (sizeOf es2)).2 w _ es2 none _
              (normalizeToml v) (le_refl _) h1
              (Entries.lookup_set_self stmm k _)
              (normalize_scalar_stored v hv) hsafe

/-- The conventional layout: `[default]` first, then `[dev]`, both defining
`project_name` (the spec's end-to-end example). -/
def defaultFirstDoc : List (String × Dyn) :=
  [("default", .tomlTable (.cons "project_name" (.tomlStr "configur") .nil)),
   ("dev", .tomlTable (Entries.nil.append
     (.cons "project_name" (.tomlStr "configur-dev") .nil)))]

/-- A world holding only `defaultFirstDoc`. -/
def defaultFirstWorld : World :=
  { envVars := [], botoAvailable := false,
    ssmFetch := fun _ => .clientError "stub",
    files := fun p => if p == "settings.toml" then some defaultFirstDoc else none }

/-- The state `defaultFirstDoc` loads into under tag `dev`. -/
def loadedDevSettings : SettingsState :=
  { _store := .cons "project_name" (.pystr "configur-dev") .nil, env := "dev",
    ssmPresent := false }

/-- Witness for the amended C1 at the spec's `project_name` example. -/
theorem C1_witness :
    defaultFirstWorld.files "settings.toml" = some
      [("default", .tomlTable (.cons "project_name" (.tomlStr "configur") .nil)),
       ("dev", .tomlTable (Entries.nil.append
         (.cons "project_name" (.tomlStr "configur-dev") .nil)))] ∧
    pyStartsWith "dev" devSettings.env = true ∧
    defaultFirstWorld.envLookup (pyUpper "project_name") = none ∧
    scalarLiteral (.tomlStr "configur-dev") = true ∧
    entriesSafe "project_name" false .nil = true ∧
    Settings.load defaultFirstWorld devSettings "settings.toml" =
      .ok loadedDevSettings ∧
    loadedDevSettings._store.lookup? "project_name" =
      some (normalizeToml (.tomlStr "configur-dev")) :=
  ⟨by decide, by decide, by decide, by decide, by decide, by decide,
    C1_env_section_wins_default_first defaultFirstWorld devSettings
      "settings.toml" "dev" "project_name" (.tomlStr "configur-dev")
      (.cons "project_name" (.tomlStr "configur") .nil) .nil .nil
      loadedDevSettings (by decide) (by decide) (by decide) (by decide)
      (by decide) (by decide)⟩

end Configur
